import Mathlib

/-!
Shallow embedding of the transaction categorization and aggregation engine of
the `dtcc-i-h-2025-chai` repository (`dtcc-frontend/src/app/page.tsx`,
transaction-analyzer module, and the extraction route's shape guard).

Modelling conventions:
* JavaScript numbers are modelled as exact rationals (`ℚ`); all the amounts the
  engine handles are finite decimal money values and the verified identities
  are algebraic.
* JavaScript objects with a fixed set of keys (the category maps) are modelled
  as insertion-ordered association lists `List (String × _)`; in-place
  `obj[k] += v` mutation becomes a pure update of the entry for `k`.  Every
  key ever updated is provably present (the classifier is total onto the fixed
  category identifier set), so the behaviour on absent keys is unreachable.
* `Array.prototype.sort` with the numeric date comparator is a stable sort by
  the parsed date key (ECMAScript requires sort stability); it is modelled by
  `List.insertionSort`, which Mathlib proves sorted, permuting, and stable.
  The JavaScript `new Date(s).getTime()` parse is a platform facility, not
  repository code, so it enters the model as an explicit parameter
  `getTime : String → Int` giving each date string its millisecond timestamp.
-/

namespace TxAnalyzer

/-! ### Strings: JavaScript `String.prototype.includes` -/

/-- `startsWithChars sub cs` : does `cs` start with `sub`? -/
def startsWithChars : List Char → List Char → Bool
  | [], _ => true
  | _ :: _, [] => false
  | a :: as, b :: bs => a = b && startsWithChars as bs

/-- `containsSub sub cs` : does `sub` occur contiguously inside `cs`? -/
def containsSub (sub : List Char) : List Char → Bool
  | [] => sub.isEmpty
  | c :: rest => startsWithChars sub (c :: rest) || containsSub sub rest

/-- JavaScript `s.includes(sub)` : substring containment test. -/
def strIncludes (s sub : String) : Bool :=
  containsSub sub.toList s.toList

/-- JavaScript `s.toLowerCase()` (kernel-reducible form of `String.toLower`). -/
def lowerCase (s : String) : String :=
  ⟨s.toList.map Char.toLower⟩

/-! ### Data model (`types/analysis.ts` and the analyzer's `RawTransaction`) -/

/-- `RawTransaction` of the analyzer module: the pre-classification record. -/
structure RawTransaction where
  date : String
  description : String
  type : String
  amount : ℚ
  balance : Option ℚ
deriving Repr, DecidableEq

/-- `Transaction` of `types/analysis.ts`: the canonical categorized record. -/
structure Transaction where
  date : String
  description : String
  amount : ℚ
  type : String
deriving Repr, DecidableEq

/-- `AnalysisData` of `types/analysis.ts`. -/
structure AnalysisData where
  initial_balance : ℚ
  final_balance : ℚ
  total_income : ℚ
  total_expenditure : ℚ
  expenditure_by_category : List (String × ℚ)
  transaction_details : List Transaction
deriving Repr, DecidableEq

/-! ### The category rule table (`CATEGORY_RULES`) -/

/-- `CATEGORY_RULES`: the fixed keyword table, in declaration order. -/
def CATEGORY_RULES : List (String × List String) :=
  [("food",
    ["restaurant", "cafe", "coffee", "pizza", "burger", "food", "grocery",
     "supermarket", "mcdonalds", "kfc", "subway", "starbucks", "dunkin",
     "uber eats", "doordash", "grubhub", "deliveroo", "just eat", "takeaway",
     "dining", "lunch", "dinner", "breakfast", "meal", "kitchen", "bakery",
     "deli", "market", "fresh", "organic"]),
   ("shopping",
    ["amazon", "ebay", "walmart", "target", "costco", "mall", "store", "shop",
     "retail", "clothing", "fashion", "shoes", "electronics", "apple",
     "best buy", "home depot", "lowes", "ikea", "furniture", "department",
     "outlet", "boutique", "online", "purchase", "buy", "order",
     "merchandise", "goods"]),
   ("leisure",
    ["netflix", "spotify", "hulu", "disney", "amazon prime", "youtube",
     "movie", "cinema", "theater", "entertainment", "game", "gaming", "steam",
     "playstation", "xbox", "nintendo", "gym", "fitness", "sport", "club",
     "membership", "subscription", "music", "concert", "event", "ticket",
     "recreation", "hobby"]),
   ("transport",
    ["gas", "fuel", "petrol", "shell", "bp", "exxon", "chevron", "uber",
     "lyft", "taxi", "bus", "train", "metro", "subway", "parking", "toll",
     "car", "vehicle", "auto", "transport", "travel", "flight", "airline",
     "airport", "rental", "maintenance", "repair", "insurance",
     "registration"]),
   ("utilities",
    ["electric", "electricity", "gas bill", "water", "sewer", "internet",
     "wifi", "phone", "mobile", "cellular", "cable", "tv", "utility", "power",
     "energy", "heating", "cooling", "trash", "waste", "recycling", "telecom",
     "broadband", "service provider", "bill payment", "monthly service"]),
   ("healthcare",
    ["doctor", "hospital", "medical", "pharmacy", "medicine", "prescription",
     "health", "dental", "dentist", "clinic", "insurance", "copay",
     "deductible", "therapy", "treatment", "surgery", "checkup",
     "appointment", "lab", "test", "x-ray", "mri", "scan", "emergency",
     "urgent care", "specialist"]),
   ("transfer",
    ["transfer", "atm", "withdrawal", "deposit", "bank", "check", "payment",
     "wire", "ach", "direct deposit", "payroll", "salary", "wage", "income",
     "refund", "reimbursement", "cash", "venmo", "paypal", "zelle", "cashapp",
     "peer", "p2p", "send", "receive", "balance transfer", "loan payment"]),
   ("investment",
    ["stock", "stocks", "shares", "etf", "mutual fund", "investment",
     "brokerage", "robinhood", "etrade", "fidelity", "vanguard", "schwab",
     "buy stock", "sell stock", "dividend", "portfolio", "crypto", "bitcoin",
     "coinbase", "binance", "investment account", "security", "securities",
     "fund", "asset", "wealth", "capital gain", "capital loss", "acorns",
     "stash", "public.com", "m1 finance"]),
   ("subscription",
    ["subscription", "netflix", "spotify", "hulu", "disney+", "google play",
     "airtel", "amazon prime", "apple music", "youtube premium", "adobe",
     "microsoft 365", "dropbox", "zoom", "slack", "patreon", "onlyfans",
     "substack", "newspaper", "magazine", "membership", "recurring",
     "monthly fee", "annual fee", "prime", "cloud", "service fee",
     "auto-renew", "renewal", "subscription fee", "streaming"])]

/-- The closed category identifier set, in spec order (nine table rows plus
`unknown`). -/
def categoryIds : List String :=
  ["food", "shopping", "leisure", "transport", "utilities", "healthcare",
   "transfer", "investment", "subscription", "unknown"]

/-! ### The classifier (`categorizeTransaction`) -/

/-- The income special case of `categorizeTransaction`: the lower-cased type
hint contains one of the six income-like substrings. -/
def isIncomeType (type : String) : Bool :=
  let transactionType := lowerCase type
  strIncludes transactionType "credit" ||
  strIncludes transactionType "deposit" ||
  strIncludes transactionType "income" ||
  strIncludes transactionType "salary" ||
  strIncludes transactionType "refund" ||
  strIncludes transactionType "interest"

/-- The classifier's rule-table loop: first category (in declaration order) one
of whose keywords occurs in the lower-cased description. -/
def findCategory (desc : String) : List (String × List String) → Option String
  | [] => none
  | (category, keywords) :: rest =>
    if keywords.any (fun keyword => strIncludes desc keyword) then some category
    else findCategory desc rest

/-- `categorizeTransaction(description, type)`. -/
def categorizeTransaction (description type : String) : String :=
  if isIncomeType type then "transfer"
  else
    match findCategory (lowerCase description) CATEGORY_RULES with
    | some category => category
    | none => "unknown"

example : categorizeTransaction "Starbucks Coffee" "debit" = "food" := by decide
example : categorizeTransaction "Payroll Deposit" "credit" = "transfer" := by decide
example : categorizeTransaction "Netflix" "debit" = "leisure" := by decide
example : categorizeTransaction "zzz" "debit" = "unknown" := by decide

/-! ### Category maps as insertion-ordered association lists -/

/-- The `expenditureByCategory` object literal: every category at `0`. -/
def initCategoryTotals : List (String × ℚ) :=
  [("food", 0), ("shopping", 0), ("leisure", 0), ("transport", 0),
   ("utilities", 0), ("healthcare", 0), ("transfer", 0), ("investment", 0),
   ("subscription", 0), ("unknown", 0)]

/-- The `counts` object literal of `getTransactionCounts`: every category at
`0`. -/
def initCounts : List (String × Nat) :=
  [("food", 0), ("shopping", 0), ("leisure", 0), ("transport", 0),
   ("utilities", 0), ("healthcare", 0), ("transfer", 0), ("investment", 0),
   ("subscription", 0), ("unknown", 0)]

/-- `obj[k] += v` on a map whose key `k` is present (absent keys untouched;
the analyzer only ever updates keys of the fixed category set, all present). -/
def addToKey (k : String) (v : ℚ) : List (String × ℚ) → List (String × ℚ)
  | [] => []
  | (k', v') :: rest =>
    if k' = k then (k', v' + v) :: rest else (k', v') :: addToKey k v rest

/-- `counts[k]++` on a map whose key `k` is present. -/
def incKey (k : String) : List (String × Nat) → List (String × Nat)
  | [] => []
  | (k', c) :: rest =>
    if k' = k then (k', c + 1) :: rest else (k', c) :: incKey k rest

/-- `obj[k]` : first value stored under `k`, if any. -/
def lookupKey (k : String) : List (String × ℚ) → Option ℚ
  | [] => none
  | (k', v) :: rest => if k' = k then some v else lookupKey k rest

/-! ### The aggregation pass of `analyzeTransactions` -/

/-- The mutable accumulation state of `analyzeTransactions`'s `forEach` pass:
`totalIncome`, `totalExpenditure`, `expenditureByCategory`. -/
structure Totals where
  totalIncome : ℚ
  totalExpenditure : ℚ
  expenditureByCategory : List (String × ℚ)
deriving Repr, DecidableEq

/-- One step of the `forEach` pass: income adds to `totalIncome`; otherwise
(amount ≤ 0, including 0) the amount adds to `totalExpenditure` and to the
category entry. -/
def processTransaction (acc : Totals) (t : Transaction) : Totals :=
  if t.amount > 0 then
    ⟨acc.totalIncome + t.amount, acc.totalExpenditure, acc.expenditureByCategory⟩
  else
    ⟨acc.totalIncome, acc.totalExpenditure + t.amount,
     addToKey t.type t.amount acc.expenditureByCategory⟩

/-- The whole `forEach` pass, from the zero-initialized state. -/
def aggregateTotals (transactions : List Transaction) : Totals :=
  transactions.foldl processTransaction ⟨0, 0, initCategoryTotals⟩

/-! ### Normalization and chronological sorting -/

/-- The `rawTransactions.map(...)` step: copy fields, classify the type. -/
def normalizeTransactions (rawTransactions : List RawTransaction) :
    List Transaction :=
  rawTransactions.map fun raw =>
    ⟨raw.date, raw.description, raw.amount,
     categorizeTransaction raw.description raw.type⟩

/-- The comparator key order of `transactions.sort((a, b) =>
new Date(a.date).getTime() - new Date(b.date).getTime())`. -/
def dateLE (getTime : String → Int) (a b : Transaction) : Prop :=
  getTime a.date ≤ getTime b.date

instance decDateLE (getTime : String → Int) : DecidableRel (dateLE getTime) :=
  fun a b => inferInstanceAs (Decidable (getTime a.date ≤ getTime b.date))

instance totalDateLE (getTime : String → Int) :
    IsTotal Transaction (dateLE getTime) :=
  ⟨fun a b => Int.le_total (getTime a.date) (getTime b.date)⟩

instance transDateLE (getTime : String → Int) :
    IsTrans Transaction (dateLE getTime) :=
  ⟨fun _ _ _ hab hbc => le_trans hab hbc⟩

/-- The `transactions.sort(...)` step: a stable sort by parsed date
(ECMAScript `Array.prototype.sort` is stable). -/
def sortTransactions (getTime : String → Int) (transactions : List Transaction) :
    List Transaction :=
  transactions.insertionSort (dateLE getTime)

/-! ### `analyzeTransactions` -/

/-- `analyzeTransactions(rawTransactions, initialBalance)`, with the date
parse `getTime` passed explicitly. -/
def analyzeTransactions (getTime : String → Int)
    (rawTransactions : List RawTransaction) (initialBalance : ℚ) :
    AnalysisData :=
  ⟨initialBalance,
   initialBalance
     + (aggregateTotals (sortTransactions getTime (normalizeTransactions rawTransactions))).totalIncome
     + (aggregateTotals (sortTransactions getTime (normalizeTransactions rawTransactions))).totalExpenditure,
   (aggregateTotals (sortTransactions getTime (normalizeTransactions rawTransactions))).totalIncome,
   (aggregateTotals (sortTransactions getTime (normalizeTransactions rawTransactions))).totalExpenditure,
   (aggregateTotals (sortTransactions getTime (normalizeTransactions rawTransactions))).expenditureByCategory,
   sortTransactions getTime (normalizeTransactions rawTransactions)⟩

/-! ### Supplementary read-only views -/

/-- One step of `getTransactionCounts`'s `forEach`: only expenditures
(`amount < 0`) are counted. -/
def countStep (counts : List (String × Nat)) (t : Transaction) :
    List (String × Nat) :=
  if t.amount < 0 then incKey t.type counts else counts

/-- `getTransactionCounts(transactions)`. -/
def getTransactionCounts (transactions : List Transaction) :
    List (String × Nat) :=
  transactions.foldl countStep initCounts

/-- `getIncomeTransactionCount(transactions)`. -/
def getIncomeTransactionCount (transactions : List Transaction) : Nat :=
  (transactions.filter fun t => t.amount > 0).length

/-- `getExpenditureTransactionCount(transactions)`. -/
def getExpenditureTransactionCount (transactions : List Transaction) : Nat :=
  (transactions.filter fun t => t.amount < 0).length

/-! ### The extraction route's shape guard (untyped JSON values) -/

/-- A parsed JSON value, the untyped candidate fed to the shape guard
(`JSON.parse` output: no `undefined` constructor — absent object properties
read as `undefined`, modelled by `Option.none` on property access). -/
inductive JsValue where
  | null : JsValue
  | boolean : Bool → JsValue
  | number : ℚ → JsValue
  | string : String → JsValue
  | array : List JsValue → JsValue
  | object : List (String × JsValue) → JsValue

/-- JavaScript `typeof v === 'object'` (true for `null`, arrays and plain
objects alike). -/
def typeofIsObject : JsValue → Bool
  | .null => true
  | .array _ => true
  | .object _ => true
  | _ => false

/-- Is the value the JavaScript `null`? -/
def isNull : JsValue → Bool
  | .null => true
  | _ => false

/-- Property lookup in an object's field list (first binding wins). -/
def lookupField (k : String) : List (String × JsValue) → Option JsValue
  | [] => none
  | (k', v) :: rest => if k' = k then some v else lookupField k rest

/-- JavaScript property access `v[k]`: `none` models `undefined`.  On the
non-null values the guard probes, named property access yields `undefined`
unless the value is a plain object carrying that property. -/
def getProp : JsValue → String → Option JsValue
  | .object fields, k => lookupField k fields
  | _, _ => none

/-- `typeof v[k] === 'string'` (an absent property is `undefined`). -/
def propIsString (v : JsValue) (k : String) : Bool :=
  match getProp v k with
  | some (.string _) => true
  | _ => false

/-- `typeof v[k] === 'number'`. -/
def propIsNumber (v : JsValue) (k : String) : Bool :=
  match getProp v k with
  | some (.number _) => true
  | _ => false

/-- `isValidTransaction(transaction)` of the extraction route. -/
def isValidTransaction (transaction : JsValue) : Bool :=
  typeofIsObject transaction && !isNull transaction &&
  propIsString transaction "date" &&
  propIsString transaction "description" &&
  propIsNumber transaction "amount" &&
  propIsString transaction "type"

/-- `isValidExtractedPageData(data)` of the extraction route. -/
def isValidExtractedPageData (data : JsValue) : Bool :=
  if !typeofIsObject data || isNull data then false
  else
    match getProp data "transactions" with
    | some (.array transactions) =>
      if !transactions.all isValidTransaction then false
      else
        match getProp data "initial_balance" with
        | none => true
        | some (.number _) => true
        | some _ => false
    | _ => false

/-- Stated from the spec's words, for comparison with the guard: a candidate
is transaction-shaped when it is a non-null record with a text date, a text
description, a numeric amount and a text type. -/
def specTransactionShape : JsValue → Bool
  | .object fields =>
    (match lookupField "date" fields with
     | some (.string _) => true
     | _ => false) &&
    (match lookupField "description" fields with
     | some (.string _) => true
     | _ => false) &&
    (match lookupField "amount" fields with
     | some (.number _) => true
     | _ => false) &&
    (match lookupField "type" fields with
     | some (.string _) => true
     | _ => false)
  | _ => false

/-- Stated from the spec's words, for comparison with the guard: a candidate
passes when it is a non-null record whose `transactions` field is a sequence
of transaction-shaped records and whose `initial_balance` field, when
present, is numeric. -/
def specPageShape : JsValue → Bool
  | .object fields =>
    (match lookupField "transactions" fields with
     | some (.array transactions) => transactions.all specTransactionShape
     | _ => false) &&
    (match lookupField "initial_balance" fields with
     | none => true
     | some (.number _) => true
     | some _ => false)
  | _ => false

/-! ### Helper lemmas: category-map updates -/

theorem addToKey_keys (k : String) (v : ℚ) :
    ∀ l : List (String × ℚ), (addToKey k v l).map Prod.fst = l.map Prod.fst := by
  intro l
  induction l with
  | nil => rfl
  | cons p rest ih =>
    obtain ⟨k', v'⟩ := p
    by_cases h : k' = k
    · simp [addToKey, h]
    · simp [addToKey, h, ih]

theorem addToKey_sum (k : String) (v : ℚ) :
    ∀ l : List (String × ℚ), k ∈ l.map Prod.fst →
      ((addToKey k v l).map Prod.snd).sum = (l.map Prod.snd).sum + v := by
  intro l
  induction l with
  | nil => intro h; simp at h
  | cons p rest ih =>
    obtain ⟨k', v'⟩ := p
    intro h
    by_cases hk : k' = k
    · simp [addToKey, hk]; ring
    · have hmem : k ∈ rest.map Prod.fst := by
        rw [List.map_cons] at h
        rcases List.mem_cons.mp h with h1 | h1
        · exact absurd h1.symm hk
        · exact h1
      simp [addToKey, hk, ih hmem]; ring

theorem addToKey_zero (k : String) :
    ∀ l : List (String × ℚ), addToKey k 0 l = l := by
  intro l
  induction l with
  | nil => rfl
  | cons p rest ih =>
    obtain ⟨k', v'⟩ := p
    by_cases h : k' = k <;> simp [addToKey, h, ih]

theorem lookupKey_addToKey_ne (k k' : String) (v : ℚ) (hne : k' ≠ k) :
    ∀ l : List (String × ℚ), lookupKey k' (addToKey k v l) = lookupKey k' l := by
  intro l
  induction l with
  | nil => rfl
  | cons p rest ih =>
    obtain ⟨k'', v''⟩ := p
    by_cases h : k'' = k
    · subst h
      have hk : ¬ k'' = k' := fun hh => hne hh.symm
      simp [addToKey, lookupKey, hk]
    · by_cases h2 : k'' = k' <;> simp [addToKey, lookupKey, h, h2, hne, ih]

theorem incKey_keys (k : String) :
    ∀ l : List (String × Nat), (incKey k l).map Prod.fst = l.map Prod.fst := by
  intro l
  induction l with
  | nil => rfl
  | cons p rest ih =>
    obtain ⟨k', c⟩ := p
    by_cases h : k' = k <;> simp [incKey, h, ih]

theorem incKey_sum (k : String) :
    ∀ l : List (String × Nat), k ∈ l.map Prod.fst →
      ((incKey k l).map Prod.snd).sum = (l.map Prod.snd).sum + 1 := by
  intro l
  induction l with
  | nil => intro h; simp at h
  | cons p rest ih =>
    obtain ⟨k', c⟩ := p
    intro h
    by_cases hk : k' = k
    · simp [incKey, hk]; omega
    · have hmem : k ∈ rest.map Prod.fst := by
        rw [List.map_cons] at h
        rcases List.mem_cons.mp h with h1 | h1
        · exact absurd h1.symm hk
        · exact h1
      simp [incKey, hk, ih hmem]; omega

/-! ### Helper lemmas: the classifier's range -/

theorem findCategory_mem (desc : String) :
    ∀ (rules : List (String × List String)) (c : String),
      findCategory desc rules = some c → c ∈ rules.map Prod.fst := by
  intro rules
  induction rules with
  | nil => intro c h; simp [findCategory] at h
  | cons p rest ih =>
    obtain ⟨cat, kws⟩ := p
    intro c h
    by_cases hm : (kws.any fun keyword => strIncludes desc keyword) = true
    · simp [findCategory, hm] at h
      simp [h]
    · simp [findCategory, hm] at h
      exact List.mem_cons_of_mem _ (ih c h)

theorem rules_fst : CATEGORY_RULES.map Prod.fst
    = ["food", "shopping", "leisure", "transport", "utilities", "healthcare",
       "transfer", "investment", "subscription"] := rfl

theorem categoryIds_split :
    categoryIds = CATEGORY_RULES.map Prod.fst ++ ["unknown"] := rfl

theorem categorizeTransaction_mem (description type : String) :
    categorizeTransaction description type ∈ categoryIds := by
  by_cases h : isIncomeType type = true
  · have heq : categorizeTransaction description type = "transfer" := by
      simp [categorizeTransaction, h]
    rw [heq]; decide
  · cases hf : findCategory (lowerCase description) CATEGORY_RULES with
    | none =>
      have heq : categorizeTransaction description type = "unknown" := by
        simp [categorizeTransaction, h, hf]
      rw [heq]; decide
    | some c =>
      have heq : categorizeTransaction description type = c := by
        simp [categorizeTransaction, h, hf]
      rw [heq, categoryIds_split]
      exact List.mem_append_left _ (findCategory_mem _ _ _ hf)

/-! ### Helper lemmas: the aggregation fold -/

theorem processTransaction_keys (acc : Totals) (t : Transaction) :
    (processTransaction acc t).expenditureByCategory.map Prod.fst
      = acc.expenditureByCategory.map Prod.fst := by
  unfold processTransaction
  by_cases h : t.amount > 0 <;> simp [h, addToKey_keys]

theorem foldl_process_keys :
    ∀ (txs : List Transaction) (acc : Totals),
      (txs.foldl processTransaction acc).expenditureByCategory.map Prod.fst
        = acc.expenditureByCategory.map Prod.fst := by
  intro txs
  induction txs with
  | nil => intro acc; rfl
  | cons t rest ih =>
    intro acc
    rw [List.foldl_cons, ih, processTransaction_keys]

theorem foldl_process_expenditure_sum :
    ∀ (txs : List Transaction) (acc : Totals),
      (∀ t ∈ txs, t.type ∈ acc.expenditureByCategory.map Prod.fst) →
      (txs.foldl processTransaction acc).totalExpenditure
          - (((txs.foldl processTransaction acc).expenditureByCategory).map Prod.snd).sum
        = acc.totalExpenditure - ((acc.expenditureByCategory).map Prod.snd).sum := by
  intro txs
  induction txs with
  | nil => intro acc _; rfl
  | cons t rest ih =>
    intro acc h
    rw [List.foldl_cons]
    have hrest : ∀ u ∈ rest,
        u.type ∈ (processTransaction acc t).expenditureByCategory.map Prod.fst := by
      intro u hu
      rw [processTransaction_keys]
      exact h u (List.mem_cons_of_mem _ hu)
    rw [ih (processTransaction acc t) hrest]
    have hmem : t.type ∈ acc.expenditureByCategory.map Prod.fst :=
      h t (List.mem_cons_self t rest)
    unfold processTransaction
    by_cases hp : t.amount > 0
    · simp [hp]
    · simp [hp, addToKey_sum _ _ _ hmem]

theorem foldl_process_lookup :
    ∀ (txs : List Transaction) (acc : Totals) (c : String),
      (∀ t ∈ txs, ¬ t.amount > 0 → t.type ≠ c) →
      lookupKey c (txs.foldl processTransaction acc).expenditureByCategory
        = lookupKey c acc.expenditureByCategory := by
  intro txs
  induction txs with
  | nil => intro acc c _; rfl
  | cons t rest ih =>
    intro acc c h
    rw [List.foldl_cons,
      ih (processTransaction acc t) c
        (fun u hu => h u (List.mem_cons_of_mem _ hu))]
    unfold processTransaction
    by_cases hp : t.amount > 0
    · simp [hp]
    · have hne : c ≠ t.type := (h t (List.mem_cons_self t rest) hp).symm
      simp [hp, lookupKey_addToKey_ne _ _ _ hne]

theorem lookupKey_init (c : String) (hc : c ∈ categoryIds) :
    lookupKey c initCategoryTotals = some 0 := by
  fin_cases hc <;> rfl

/-! ### Helper lemmas: the counting fold -/

theorem countStep_keys (acc : List (String × Nat)) (t : Transaction) :
    (countStep acc t).map Prod.fst = acc.map Prod.fst := by
  unfold countStep
  by_cases h : t.amount < 0 <;> simp [h, incKey_keys]

theorem foldl_count_sum :
    ∀ (txs : List Transaction) (acc : List (String × Nat)),
      (∀ t ∈ txs, t.type ∈ acc.map Prod.fst) →
      ((txs.foldl countStep acc).map Prod.snd).sum
        = (acc.map Prod.snd).sum + (txs.filter fun t => t.amount < 0).length := by
  intro txs
  induction txs with
  | nil => intro acc _; simp
  | cons t rest ih =>
    intro acc h
    have hrest : ∀ u ∈ rest, u.type ∈ (countStep acc t).map Prod.fst := by
      intro u hu
      rw [countStep_keys]
      exact h u (List.mem_cons_of_mem _ hu)
    rw [List.foldl_cons, ih (countStep acc t) hrest]
    have hmem : t.type ∈ acc.map Prod.fst := h t (List.mem_cons_self t rest)
    by_cases hp : t.amount < 0
    · simp [countStep, hp, incKey_sum _ _ hmem]
      omega
    · simp [countStep, hp]

/-! ### Helper lemmas: normalization and sorting -/

theorem mem_normalize_type (raws : List RawTransaction) :
    ∀ t ∈ normalizeTransactions raws, t.type ∈ categoryIds := by
  intro t ht
  simp only [normalizeTransactions, List.mem_map] at ht
  obtain ⟨raw, _, rfl⟩ := ht
  exact categorizeTransaction_mem raw.description raw.type

theorem mem_sortTransactions (getTime : String → Int) (l : List Transaction)
    (t : Transaction) : t ∈ sortTransactions getTime l ↔ t ∈ l :=
  (List.perm_insertionSort (dateLE getTime) l).mem_iff

/-! ### Helper lemmas: first-match behaviour of the rule-table loop -/

theorem findCategory_append (desc : String) (pre : List (String × List String))
    (cat : String) (kws : List String) (post : List (String × List String))
    (hpre : ∀ r ∈ pre, (r.2.any fun keyword => strIncludes desc keyword) = false)
    (hcat : (kws.any fun keyword => strIncludes desc keyword) = true) :
    findCategory desc (pre ++ (cat, kws) :: post) = some cat := by
  induction pre with
  | nil => simp [findCategory, hcat]
  | cons p rest ih =>
    obtain ⟨pc, pk⟩ := p
    have hp := hpre (pc, pk) (List.mem_cons_self _ _)
    simp only [List.cons_append, findCategory, hp]
    simp only [Bool.false_eq_true, if_false]
    exact ih (fun r hr => hpre r (List.mem_cons_of_mem _ hr))

theorem findCategory_none (desc : String) :
    ∀ rules : List (String × List String),
      (∀ r ∈ rules, (r.2.any fun keyword => strIncludes desc keyword) = false) →
      findCategory desc rules = none := by
  intro rules
  induction rules with
  | nil => intro _; rfl
  | cons p rest ih =>
    intro h
    obtain ⟨pc, pk⟩ := p
    have hp := h (pc, pk) (List.mem_cons_self _ _)
    simp only [findCategory, hp, Bool.false_eq_true, if_false]
    exact ih (fun r hr => h r (List.mem_cons_of_mem _ hr))

/-! ### Scenario checks (spec §8) -/

example :
    (analyzeTransactions (fun _ => 0)
        [⟨"2024-01-05", "Starbucks Coffee", "debit", -9/2, none⟩] 100)
      = ⟨100, 191/2, 0, -9/2,
         [("food", -9/2), ("shopping", 0), ("leisure", 0), ("transport", 0),
          ("utilities", 0), ("healthcare", 0), ("transfer", 0),
          ("investment", 0), ("subscription", 0), ("unknown", 0)],
         [⟨"2024-01-05", "Starbucks Coffee", -9/2, "food"⟩]⟩ := by
  have hcat : categorizeTransaction "Starbucks Coffee" "debit" = "food" := by
    decide
  have hneg : ¬ ((-9/2 : ℚ) > 0) := by norm_num
  norm_num [analyzeTransactions, aggregateTotals, sortTransactions,
    normalizeTransactions, List.insertionSort, List.orderedInsert,
    processTransaction, initCategoryTotals, addToKey, hcat, hneg]

example :
    (analyzeTransactions (fun _ => 0)
        [⟨"2024-01-01", "Payroll Deposit", "credit", 2000, none⟩] 0)
      = ⟨0, 2000, 2000, 0, initCategoryTotals,
         [⟨"2024-01-01", "Payroll Deposit", 2000, "transfer"⟩]⟩ := by
  have hcat : categorizeTransaction "Payroll Deposit" "credit" = "transfer" := by
    decide
  have hpos : ((2000 : ℚ) > 0) := by norm_num
  norm_num [analyzeTransactions, aggregateTotals, sortTransactions,
    normalizeTransactions, List.insertionSort, List.orderedInsert,
    processTransaction, hcat, hpos]

example :
    (analyzeTransactions (fun _ => 0) [] 50)
      = ⟨50, 50, 0, 0, initCategoryTotals, []⟩ := by
  norm_num [analyzeTransactions, aggregateTotals, sortTransactions,
    normalizeTransactions, List.insertionSort]

/-! ### Helper lemma: per-transaction shape check -/

theorem validTransaction_eq_shape (t : JsValue) :
    isValidTransaction t = specTransactionShape t := by
  cases t <;> rfl

/-! ### The claims -/

/-- Claim C1: for every finite sequence of transactions and every initial
balance, the summary returned by `analyzeTransactions` satisfies
`final_balance == initial_balance + total_income + total_expenditure`. -/
theorem claim_C1_balance_identity (getTime : String → Int)
    (raws : List RawTransaction) (b : ℚ) :
    (analyzeTransactions getTime raws b).final_balance
      = (analyzeTransactions getTime raws b).initial_balance
        + (analyzeTransactions getTime raws b).total_income
        + (analyzeTransactions getTime raws b).total_expenditure := rfl

/-- Claim C2: for every finite sequence of raw transactions and every initial
balance, the summary returned by `analyzeTransactions` satisfies
`total_expenditure == sum of the values of expenditure_by_category`. -/
theorem claim_C2_category_sum_identity (getTime : String → Int)
    (raws : List RawTransaction) (b : ℚ) :
    (analyzeTransactions getTime raws b).total_expenditure
      = (((analyzeTransactions getTime raws b).expenditure_by_category).map
          Prod.snd).sum := by
  show (aggregateTotals (sortTransactions getTime (normalizeTransactions raws))).totalExpenditure
      = (((aggregateTotals (sortTransactions getTime (normalizeTransactions raws))).expenditureByCategory).map
          Prod.snd).sum
  have hmem : ∀ t ∈ sortTransactions getTime (normalizeTransactions raws),
      t.type ∈ (Totals.mk 0 0 initCategoryTotals).expenditureByCategory.map
        Prod.fst := by
    intro t ht
    have h1 : t ∈ normalizeTransactions raws :=
      (mem_sortTransactions getTime (normalizeTransactions raws) t).mp ht
    have h2 := mem_normalize_type raws t h1
    show t.type ∈ initCategoryTotals.map Prod.fst
    have hkeys : initCategoryTotals.map Prod.fst = categoryIds := rfl
    rw [hkeys]
    exact h2
  have key := foldl_process_expenditure_sum
    (sortTransactions getTime (normalizeTransactions raws))
    ⟨0, 0, initCategoryTotals⟩ hmem
  unfold aggregateTotals
  have hinit : ((initCategoryTotals.map Prod.snd).sum : ℚ) = 0 := by
    simp [initCategoryTotals]
  simp only [hinit] at key
  linarith [key]

/-- Claim C3: for every input (including the empty sequence),
`expenditure_by_category` contains each of the ten fixed category identifiers
as a key, with value 0 for any category not hit by an expenditure. -/
theorem claim_C3_completeness (getTime : String → Int)
    (raws : List RawTransaction) (b : ℚ) (c : String) :
    (analyzeTransactions getTime raws b).expenditure_by_category.map Prod.fst
        = categoryIds
    ∧ (c ∈ categoryIds →
        (∀ t ∈ (analyzeTransactions getTime raws b).transaction_details,
            t.amount ≤ 0 → t.type ≠ c) →
        lookupKey c ((analyzeTransactions getTime raws b).expenditure_by_category)
          = some 0) := by
  constructor
  · show (aggregateTotals (sortTransactions getTime (normalizeTransactions raws))).expenditureByCategory.map
        Prod.fst = categoryIds
    unfold aggregateTotals
    rw [foldl_process_keys]
    rfl
  · intro hc h
    show lookupKey c
        (aggregateTotals (sortTransactions getTime (normalizeTransactions raws))).expenditureByCategory
      = some 0
    unfold aggregateTotals
    have h' : ∀ t ∈ sortTransactions getTime (normalizeTransactions raws),
        ¬ t.amount > 0 → t.type ≠ c :=
      fun t ht hnp => h t ht (not_lt.mp hnp)
    rw [foldl_process_lookup _ _ _ h']
    exact lookupKey_init c hc

theorem claim_C3_witness :
    (analyzeTransactions (fun _ => 0) [] 0).expenditure_by_category.map Prod.fst
        = categoryIds
    ∧ lookupKey "food"
        ((analyzeTransactions (fun _ => 0) [] 0).expenditure_by_category)
      = some 0 := by
  have h := claim_C3_completeness (fun _ => 0) [] 0 "food"
  refine ⟨h.1, h.2 (by decide) ?_⟩
  intro t ht
  exact absurd ht (List.not_mem_nil t)

/-- Claim C4: for every description, and every typeHint whose lower-casing
contains one of "credit", "deposit", "income", "salary", "refund",
"interest", `categorizeTransaction` returns "transfer", independently of the
description's content. -/
theorem claim_C4_income_hint (description type : String)
    (h : strIncludes (lowerCase type) "credit" = true ∨
         strIncludes (lowerCase type) "deposit" = true ∨
         strIncludes (lowerCase type) "income" = true ∨
         strIncludes (lowerCase type) "salary" = true ∨
         strIncludes (lowerCase type) "refund" = true ∨
         strIncludes (lowerCase type) "interest" = true) :
    categorizeTransaction description type = "transfer" := by
  have hinc : isIncomeType type = true := by
    unfold isIncomeType
    rcases h with h | h | h | h | h | h <;> simp [h]
  simp [categorizeTransaction, hinc]

theorem claim_C4_witness :
    categorizeTransaction "Groceries at Walmart" "CREDIT" = "transfer" :=
  claim_C4_income_hint "Groceries at Walmart" "CREDIT" (Or.inl (by decide))

/-- Claim C5: for every description and typeHint not triggering the income
special case, `categorizeTransaction` returns the first category in the rule
table's declaration order (food, shopping, leisure, transport, utilities,
healthcare, transfer, investment, subscription) one of whose keywords is a
substring of the lower-cased description — the earlier-declared category wins
on overlaps — and returns "unknown" when no keyword of any category
matches. -/
theorem claim_C5_first_match (description type : String)
    (hNotIncome : isIncomeType type = false) :
    CATEGORY_RULES.map Prod.fst
        = ["food", "shopping", "leisure", "transport", "utilities",
           "healthcare", "transfer", "investment", "subscription"]
    ∧ (∀ (pre : List (String × List String)) (cat : String)
          (kws : List String) (post : List (String × List String)),
        CATEGORY_RULES = pre ++ (cat, kws) :: post →
        (∀ r ∈ pre,
          (r.2.any fun keyword =>
            strIncludes (lowerCase description) keyword) = false) →
        (kws.any fun keyword =>
          strIncludes (lowerCase description) keyword) = true →
        categorizeTransaction description type = cat)
    ∧ ((∀ r ∈ CATEGORY_RULES,
          (r.2.any fun keyword =>
            strIncludes (lowerCase description) keyword) = false) →
        categorizeTransaction description type = "unknown") := by
  refine ⟨rfl, ?_, ?_⟩
  · intro pre cat kws post hsplit hpre hcat
    have hfind : findCategory (lowerCase description) CATEGORY_RULES = some cat := by
      rw [hsplit]
      exact findCategory_append (lowerCase description) pre cat kws post hpre hcat
    simp [categorizeTransaction, hNotIncome, hfind]
  · intro hnone
    have hfind : findCategory (lowerCase description) CATEGORY_RULES = none :=
      findCategory_none (lowerCase description) CATEGORY_RULES hnone
    simp [categorizeTransaction, hNotIncome, hfind]

theorem claim_C5_witness :
    categorizeTransaction "Netflix" "debit" = "leisure" := by
  have h := claim_C5_first_match "Netflix" "debit" (by decide)
  exact h.2.1 (CATEGORY_RULES.take 2) "leisure"
    (CATEGORY_RULES.get ⟨2, by decide⟩).2 (CATEGORY_RULES.drop 3)
    rfl (by decide) (by decide)

/-- Claim C6: a transaction with amount 0 is processed through the
expenditure branch of `analyzeTransactions`'s aggregation pass — its amount
is added to `totalExpenditure` and to its category's entry, changing neither,
and not to `totalIncome` — while the supplementary views exclude it:
`getTransactionCounts` counts only amount < 0, `getIncomeTransactionCount`
only amount > 0, `getExpenditureTransactionCount` only amount < 0. -/
theorem claim_C6_zero_amount (t : Transaction) (h : t.amount = 0)
    (acc : Totals) (l : List Transaction) :
    processTransaction acc t
        = ⟨acc.totalIncome, acc.totalExpenditure + t.amount,
           addToKey t.type t.amount acc.expenditureByCategory⟩
    ∧ (processTransaction acc t).totalIncome = acc.totalIncome
    ∧ (processTransaction acc t).totalExpenditure = acc.totalExpenditure
    ∧ (processTransaction acc t).expenditureByCategory
        = acc.expenditureByCategory
    ∧ getTransactionCounts (l ++ [t]) = getTransactionCounts l
    ∧ getIncomeTransactionCount (l ++ [t]) = getIncomeTransactionCount l
    ∧ getExpenditureTransactionCount (l ++ [t])
        = getExpenditureTransactionCount l := by
  have hnp : ¬ t.amount > 0 := by rw [h]; exact lt_irrefl 0
  have hnn : ¬ t.amount < 0 := by rw [h]; exact lt_irrefl 0
  refine ⟨?_, ?_, ?_, ?_, ?_, ?_, ?_⟩
  · unfold processTransaction
    rw [if_neg hnp]
  · simp [processTransaction, hnp]
  · simp [processTransaction, hnp, h]
  · simp [processTransaction, hnp, h, addToKey_zero]
  · simp [getTransactionCounts, List.foldl_append, countStep, hnn]
  · simp [getIncomeTransactionCount, List.filter_append, hnp]
  · simp [getExpenditureTransactionCount, List.filter_append, hnn]

theorem claim_C6_witness :
    (processTransaction ⟨0, 0, initCategoryTotals⟩
        ⟨"2024-01-03", "zero purchase", 0, "food"⟩).totalExpenditure = (0 : ℚ)
    ∧ getTransactionCounts ([] ++ [⟨"2024-01-03", "zero purchase", 0, "food"⟩])
        = getTransactionCounts [] := by
  have h := claim_C6_zero_amount ⟨"2024-01-03", "zero purchase", 0, "food"⟩
    rfl ⟨0, 0, initCategoryTotals⟩ []
  exact ⟨h.2.2.1, h.2.2.2.2.1⟩

/-- Claim C7: for every input whose dates all parse (the parse being the
`getTime` parameter), the `transaction_details` of the summary are sorted
non-decreasing by parsed date, regardless of input order. -/
theorem claim_C7_sorted (getTime : String → Int) (raws : List RawTransaction)
    (b : ℚ) :
    List.Sorted (dateLE getTime)
      (analyzeTransactions getTime raws b).transaction_details :=
  List.sorted_insertionSort (dateLE getTime) (normalizeTransactions raws)

/-- Claim C8: transactions with equal parsed dates appear in
`transaction_details` in the same relative order as in the (normalized) input
sequence: the sort is stable on date ties. -/
theorem claim_C8_stable (getTime : String → Int) (raws : List RawTransaction)
    (b : ℚ) (k : Int) :
    ((analyzeTransactions getTime raws b).transaction_details.filter
        fun t => getTime t.date == k)
      = ((normalizeTransactions raws).filter fun t => getTime t.date == k) := by
  show (((normalizeTransactions raws).insertionSort (dateLE getTime)).filter
        fun t => getTime t.date == k)
      = ((normalizeTransactions raws).filter fun t => getTime t.date == k)
  have hall : ∀ a ∈ (normalizeTransactions raws).filter
      (fun t => getTime t.date == k), getTime a.date = k := by
    intro a ha
    have hpa := (List.mem_filter.mp ha).2
    simpa using hpa
  have hpair : ((normalizeTransactions raws).filter
      (fun t => getTime t.date == k)).Pairwise (dateLE getTime) :=
    List.pairwise_of_forall_mem_list fun a ha a' ha' => by
      show getTime a.date ≤ getTime a'.date
      rw [hall a ha, hall a' ha']
  have h1 := List.sublist_insertionSort hpair
    (List.filter_sublist (normalizeTransactions raws))
  have hself : ((normalizeTransactions raws).filter
        (fun t => getTime t.date == k)).filter (fun t => getTime t.date == k)
      = (normalizeTransactions raws).filter (fun t => getTime t.date == k) :=
    List.filter_eq_self.mpr fun a ha => (List.mem_filter.mp ha).2
  have h2 := h1.filter (fun t => getTime t.date == k)
  rw [hself] at h2
  have hlen : (((normalizeTransactions raws).insertionSort
          (dateLE getTime)).filter (fun t => getTime t.date == k)).length
      = ((normalizeTransactions raws).filter
          (fun t => getTime t.date == k)).length :=
    ((List.perm_insertionSort (dateLE getTime)
        (normalizeTransactions raws)).filter _).length_eq
  exact (h2.eq_of_length hlen.symm).symm

/-- Claim C9: the shape guard `isValidExtractedPageData` accepts exactly the
non-null records whose `transactions` field is a sequence of non-null records
with text date, text description, numeric amount and text type, and whose
`initial_balance` field, when present, is numeric. -/
theorem claim_C9_shape_guard (data : JsValue) :
    isValidExtractedPageData data = specPageShape data := by
  have hfun : isValidTransaction = specTransactionShape :=
    funext validTransaction_eq_shape
  cases data with
  | object fields =>
    rcases htr : lookupField "transactions" fields with _ | v
    · simp [isValidExtractedPageData, specPageShape, getProp, typeofIsObject,
        isNull, htr]
    · cases v with
      | array transactions =>
        simp only [isValidExtractedPageData, specPageShape, getProp,
          typeofIsObject, isNull, htr, Bool.not_true, Bool.or_self,
          Bool.false_eq_true, if_false, hfun]
        by_cases hall : transactions.all specTransactionShape = true
        · simp only [hall, Bool.not_true, Bool.false_eq_true, if_false,
            Bool.true_and]
        · have hall' : transactions.all specTransactionShape = false :=
            Bool.eq_false_iff.mpr hall
          simp [hall']
      | null =>
        simp [isValidExtractedPageData, specPageShape, getProp, typeofIsObject,
          isNull, htr]
      | boolean b2 =>
        simp [isValidExtractedPageData, specPageShape, getProp, typeofIsObject,
          isNull, htr]
      | number q =>
        simp [isValidExtractedPageData, specPageShape, getProp, typeofIsObject,
          isNull, htr]
      | string s =>
        simp [isValidExtractedPageData, specPageShape, getProp, typeofIsObject,
          isNull, htr]
      | object inner =>
        simp [isValidExtractedPageData, specPageShape, getProp, typeofIsObject,
          isNull, htr]
  | null => rfl
  | boolean b2 => rfl
  | number q => rfl
  | string s => rfl
  | array l => rfl

/-- Claim C10: over any transaction sequence whose types lie in the ten fixed
category identifiers, the counts of `getTransactionCounts` sum to
`getExpenditureTransactionCount`, the number of transactions with
amount < 0. -/
theorem claim_C10_counts_sum (transactions : List Transaction)
    (h : ∀ t ∈ transactions, t.type ∈ categoryIds) :
    ((getTransactionCounts transactions).map Prod.snd).sum
      = getExpenditureTransactionCount transactions := by
  have h' : ∀ t ∈ transactions, t.type ∈ initCounts.map Prod.fst := by
    intro t ht
    have hkeys : initCounts.map Prod.fst = categoryIds := rfl
    rw [hkeys]
    exact h t ht
  have key := foldl_count_sum transactions initCounts h'
  have hinit : ((initCounts.map Prod.snd).sum : Nat) = 0 := rfl
  rw [getTransactionCounts, key, hinit, Nat.zero_add]
  rfl

theorem claim_C10_witness :
    ((getTransactionCounts
        [⟨"2024-01-01", "Starbucks Coffee", -5, "food"⟩,
         ⟨"2024-01-02", "Payroll", 3, "transfer"⟩]).map Prod.snd).sum
      = getExpenditureTransactionCount
          [⟨"2024-01-01", "Starbucks Coffee", -5, "food"⟩,
           ⟨"2024-01-02", "Payroll", 3, "transfer"⟩] :=
  claim_C10_counts_sum _ (by decide)

end TxAnalyzer
